import Mathlib

/-!
Shallow embedding of `quad_pid.py`: a quadrotor altitude/attitude PD
controller running in a simulator loop.  The controller's arithmetic
(error, finite-difference derivative, PD law, gravity compensation,
rotor mixing) is embedded over an arbitrary linear ordered field `K`
so that the same definitions serve exact rational evaluation (`K = ℚ`)
and the real-valued trigonometric pipeline (`K = ℝ`).
-/

namespace QuadPid

/-- 4-vectors, componentwise arithmetic via the `Prod` instances
(matching numpy's elementwise semantics on shape-(4,) arrays). -/
abbrev Vec4 (K : Type) := K × K × K × K

/-- 4×4 matrices as four rows. -/
abbrev Mat4 (K : Type) := Vec4 K × Vec4 K × Vec4 K × Vec4 K

section Constants

variable (K : Type) [LinearOrderedField K]

/-- `dt = 0.001` (quad_pid.py line 16). -/
def dt : K := 1 / 1000

/-- `gravity = 9.81` (line 17). -/
def gravity : K := 981 / 100

/-- `mass = 0.3` (line 70). -/
def mass : K := 3 / 10

/-- Desired state `(z, r, p, y)`: `x_d = [0.5, 0, 0, 0]` (lines 73-78). -/
def x_d : Vec4 K := (1 / 2, 0, 0, 0)

/-- `kpz = 4.` (line 81). -/
def kpz : K := 4

/-- `kpphi = 0.01` (line 82). -/
def kpphi : K := 1 / 100

/-- `kptheta = 0.01` (line 83). -/
def kptheta : K := 1 / 100

/-- `kppsi = 0.01` (line 84). -/
def kppsi : K := 1 / 100

/-- Proportional gain matrix `K_p` (lines 86-91). -/
def K_p : Mat4 K :=
  ((kpz K, 0, 0, 0),
   (0, kpphi K, 0, 0),
   (0, 0, kptheta K, 0),
   (0, 0, 0, kppsi K))

/-- `kdz = 0.01` (line 93). -/
def kdz : K := 1 / 100

/-- `kdphi = 0.01` (line 94). -/
def kdphi : K := 1 / 100

/-- `kdtheta = 0.01` (line 95). -/
def kdtheta : K := 1 / 100

/-- `kdpsi = 0.01` (line 96). -/
def kdpsi : K := 1 / 100

/-- Derivative gain matrix `K_d` (lines 98-103). -/
def K_d : Mat4 K :=
  ((kdz K, 0, 0, 0),
   (0, kdphi K, 0, 0),
   (0, 0, kdtheta K, 0),
   (0, 0, 0, kdpsi K))

/-- Moment arm `L = 0.1` (line 106). -/
def L : K := 1 / 10

/-- Constant factor `C = 0.1` (line 109). -/
def C : K := 1 / 10

/-- `a = 0.25` (line 112). -/
def a : K := 1 / 4

/-- `b = 1 / (4*L)` (line 113). -/
def b : K := 1 / (4 * L K)

/-- `c = 1 / (4*C)` (line 114). -/
def c : K := 1 / (4 * C K)

/-- Rotor mixing matrix `C_R` (lines 116-121). -/
def C_R : Mat4 K :=
  ((a K, b K, -b K, -c K),
   (a K, -b K, -b K, c K),
   (a K, -b K, b K, -c K),
   (a K, b K, b K, c K))

end Constants

section Ops

variable {K : Type} [LinearOrderedField K]

/-- Row–vector dot product (one entry of `np.matmul` of a 4×4 with a 4-vector). -/
def dot (r v : Vec4 K) : K :=
  r.1 * v.1 + r.2.1 * v.2.1 + r.2.2.1 * v.2.2.1 + r.2.2.2 * v.2.2.2

/-- `np.matmul M v` for a 4×4 matrix and a 4-vector. -/
def mulVec (M : Mat4 K) (v : Vec4 K) : Vec4 K :=
  (dot M.1 v, dot M.2.1 v, dot M.2.2.1 v, dot M.2.2.2 v)

/-- Componentwise division of a 4-vector by a scalar (numpy broadcasting of `/`). -/
def divs (v : Vec4 K) (s : K) : Vec4 K :=
  (v.1 / s, v.2.1 / s, v.2.2.1 / s, v.2.2.2 / s)

/-- Error computation `e = x_d - x` (line 143). -/
def errOf (x : Vec4 K) : Vec4 K := x_d K - x

/-- Finite-difference derivative `e_dot = (e - e_last)/dt` (line 144). -/
def eDotOf (e e_last : Vec4 K) : Vec4 K := divs (e - e_last) (dt K)

/-- PD term `np.matmul(K_p, e) + np.matmul(K_d, e_dot)` (line 149). -/
def uPD (e e_dot : Vec4 K) : Vec4 K := mulVec (K_p K) e + mulVec (K_d K) e_dot

/-- Control input after the altitude-channel adjustment
`u += np.array([u[0] + mass * gravity, 0, 0, 0])` (lines 149-150). -/
def uOf (e e_dot : Vec4 K) : Vec4 K :=
  let u := uPD e e_dot
  u + (u.1 + mass K * gravity K, 0, 0, 0)

/-- Actuator input `F = np.matmul(C_R, u)` (line 153). -/
def FOf (u : Vec4 K) : Vec4 K := mulVec (C_R K) u

/-- Loop-carried state: the tick counter `t` and the retained error `e`
(lines 66-67, 142, 160). -/
structure LoopState (K : Type) where
  t : ℕ
  e : Vec4 K

/-- Initial loop state: `t = 0`, `e = 0` (lines 66-67; numpy broadcasts the
scalar `0` to the zero 4-vector at the first subtraction). -/
def initState (K : Type) [LinearOrderedField K] : LoopState K := ⟨0, 0⟩

/-- One iteration of the `while True` body (lines 124-160), with the observed
state vector `x` (built from the simulator pose) as input.  Returns the new
loop-carried state and the vector `F` written to `sim.data.ctrl[0..3]`
(lines 155-158). -/
def tick (s : LoopState K) (x : Vec4 K) : LoopState K × Vec4 K :=
  let e := errOf x
  let e_dot := eDotOf e s.e
  let u := uOf e e_dot
  let F := FOf u
  (⟨s.t + 1, e⟩, F)

/-- Loop-carried state after `n` complete iterations, driven by the stream
`inputs` of observed state vectors (iteration `n` observes `inputs n`). -/
def stateAfter (inputs : ℕ → Vec4 K) : ℕ → LoopState K
  | 0 => initState K
  | n + 1 => (tick (stateAfter inputs n) (inputs n)).1

/-- The four actuator commands written during iteration `n` (0-indexed). -/
def ctrlAt (inputs : ℕ → Vec4 K) (n : ℕ) : Vec4 K :=
  (tick (stateAfter inputs n) (inputs n)).2

/-- The derivative `e_dot` computed during iteration `n` (0-indexed). -/
def eDotAt (inputs : ℕ → Vec4 K) (n : ℕ) : Vec4 K :=
  eDotOf (errOf (inputs n)) ((stateAfter inputs n).e)

/-- The mixing computation as a pure function of the current and previous
error, as the specification describes it: `F = C_R · (K_p·e + K_d·e_dot +
gravity-compensation-on-channel-0)` with `e_dot = (e - e_last)/dt`. -/
def Fpure (e e_last : Vec4 K) : Vec4 K := FOf (uOf e (eDotOf e e_last))

/-- The break condition `t > 100 and os.getenv('TESTING') is not None`
(line 163), evaluated after the increment `t += 1` and `sim.step()`. -/
def breakCond (testing : Bool) (t : ℕ) : Bool := decide (100 < t) && testing

/-- The loop self-terminates iff the break condition holds after some
iteration (the value of `t` after iteration `k` is `k`). -/
def loopExits (testing : Bool) : Prop := ∃ k, breakCond testing k = true

/-- Simulator-side clamp of an actuator command to the configured
`ctrlrange="0.0 10.0"` of each motor (MODEL_XML lines 54-57). -/
def clampCtrl (v : K) : K := max 0 (min 10 v)

end Ops

/-! Real-valued pipeline: rotation-matrix decomposition (lines 127-139).
These definitions are over ℝ (trigonometry), hence noncomputable. -/

noncomputable section RealPipeline

/-- 3-vectors over ℝ. -/
abbrev Vec3 := ℝ × ℝ × ℝ

/-- 3×3 rotation matrices as three rows, as returned by
`sim.data.get_body_xmat` (line 127). -/
abbrev Mat3 := Vec3 × Vec3 × Vec3

/-- `np.arctan2 y x`: the four-quadrant arctangent, following the IEEE/numpy
branch conventions (`arctan2(0, 0) = 0`). -/
def arctan2 (y x : ℝ) : ℝ :=
  if 0 < x then Real.arctan (y / x)
  else if x < 0 then
    (if 0 ≤ y then Real.arctan (y / x) + Real.pi else Real.arctan (y / x) - Real.pi)
  else
    (if 0 < y then Real.pi / 2 else if y < 0 then -(Real.pi / 2) else 0)

/-- `yaw = np.arctan2(rotmat[1][0], rotmat[0][0])` (line 129). -/
def yawOf (R : Mat3) : ℝ := arctan2 R.2.1.1 R.1.1

/-- `pitch = np.arctan2(-rotmat[2][0], np.sqrt(rotmat[2][1]**2 + rotmat[2][2]**2))`
(line 130). -/
def pitchOf (R : Mat3) : ℝ :=
  arctan2 (-R.2.2.1) (Real.sqrt (R.2.2.2.1 ^ 2 + R.2.2.2.2 ^ 2))

/-- `roll = np.arctan2(rotmat[2][1], rotmat[2][2])` (line 131). -/
def rollOf (R : Mat3) : ℝ := arctan2 R.2.2.2.1 R.2.2.2.2

/-- The state vector `x = [z, roll, pitch, yaw]` (lines 134-139), where `z`
is the body's world center-of-mass height `sim.data.get_body_xipos(...)[2]`. -/
def stateVec (R : Mat3) (z : ℝ) : Vec4 ℝ := (z, rollOf R, pitchOf R, yawOf R)

/-- The identity rotation matrix. -/
def idMat3 : Mat3 := ((1, 0, 0), (0, 1, 0), (0, 0, 1))

/-- The aerospace (intrinsic Z-Y-X) rotation matrix built from roll `φ`,
pitch `θ`, yaw `ψ`, i.e. `R = Rz(ψ) · Ry(θ) · Rx(φ)` — the convention the
specification's round-trip property refers to. -/
def rotZYX (φ θ ψ : ℝ) : Mat3 :=
  ((Real.cos ψ * Real.cos θ,
    Real.cos ψ * Real.sin θ * Real.sin φ - Real.sin ψ * Real.cos φ,
    Real.cos ψ * Real.sin θ * Real.cos φ + Real.sin ψ * Real.sin φ),
   (Real.sin ψ * Real.cos θ,
    Real.sin ψ * Real.sin θ * Real.sin φ + Real.cos ψ * Real.cos φ,
    Real.sin ψ * Real.sin θ * Real.cos φ - Real.cos ψ * Real.sin φ),
   (-Real.sin θ,
    Real.cos θ * Real.sin φ,
    Real.cos θ * Real.cos φ))

end RealPipeline

/-- The tick counter after `n` iterations is `n`. -/
theorem stateAfter_t {K : Type} [LinearOrderedField K]
    (inputs : ℕ → Vec4 K) (n : ℕ) : (stateAfter inputs n).t = n := by
  induction n with
  | zero => rfl
  | succ n ih => simp [stateAfter, tick, ih]

/-- The clamp to `ctrlrange="0.0 10.0"` always lands in `[0, 10]`. -/
theorem clampCtrl_mem {K : Type} [LinearOrderedField K] (v : K) :
    0 ≤ clampCtrl v ∧ clampCtrl v ≤ 10 :=
  ⟨le_max_left _ _, max_le (by norm_num) (min_le_left _ _)⟩

/-- C1: on every tick, the four actuator commands written to the simulator
equal `C_R · (K_p·e + K_d·e_dot + gravity-compensation-on-channel-0)` with
`e_dot = (e - e_last)/dt`: the written command vector is the deterministic
pure function `Fpure` of the current error and the retained previous error,
given the fixed gain and mixing matrices. -/
theorem c1_ctrl_is_pure_mixing :
    ∀ (inputs : ℕ → Vec4 ℚ) (n : ℕ),
      ctrlAt inputs n = Fpure (errOf (inputs n)) ((stateAfter inputs n).e) := by
  intro inputs n
  rfl

/-- C2: after `u = K_p·e + K_d·e_dot`, the adjustment
`u[0] = u[0] + (u[0] + mass*gravity)` makes the altitude channel equal
`2·(K_p·e + K_d·e_dot)[0] + mass*gravity` while leaving channels 1–3
unchanged. -/
theorem c2_altitude_channel_doubled :
    ∀ e e_dot : Vec4 ℚ,
      (uOf e e_dot).1 = 2 * (uPD e e_dot).1 + mass ℚ * gravity ℚ ∧
      (uOf e e_dot).2.1 = (uPD e e_dot).2.1 ∧
      (uOf e e_dot).2.2.1 = (uPD e e_dot).2.2.1 ∧
      (uOf e e_dot).2.2.2 = (uPD e e_dot).2.2.2 := by
  intro e e_dot
  refine ⟨?_, ?_, ?_, ?_⟩
  · simp [uOf, Prod.fst_add]; ring
  · simp [uOf, Prod.snd_add]
  · simp [uOf, Prod.snd_add]
  · simp [uOf, Prod.snd_add]

/-- C4: with the test flag set, some iteration beyond the 100th satisfies the
break condition evaluated on the loop's tick counter, so the loop performs
more than 100 simulation steps and then terminates; with the flag unset, the
break condition never holds on any iteration, so the loop never
self-terminates. -/
theorem c4_test_flag_termination :
    (∀ inputs : ℕ → Vec4 ℚ, ∃ n, 100 < n ∧
      breakCond true ((stateAfter inputs n).t) = true) ∧
    (∀ (inputs : ℕ → Vec4 ℚ) (n : ℕ),
      breakCond false ((stateAfter inputs n).t) = false) := by
  constructor
  · intro inputs
    refine ⟨101, by norm_num, ?_⟩
    rw [stateAfter_t]
    rfl
  · intro inputs n
    simp [breakCond]

/-- C5 counterexample: the claim that every written thrust command is
non-negative fails.  With the quadrotor observed at altitude `z = 10`
(level attitude) on the first tick, the command written to actuator 0 is
`-263057/4000 < 0`: the controller writes raw mixed commands without
clamping. -/
theorem c5_counterexample :
    (ctrlAt (fun _ => ((10 : ℚ), 0, 0, 0)) 0).1 = -263057 / 4000 ∧
    (ctrlAt (fun _ => ((10 : ℚ), 0, 0, 0)) 0).1 < 0 := by
  constructor <;>
    norm_num [ctrlAt, tick, errOf, eDotOf, divs, uPD, uOf, FOf, mulVec, dot,
      stateAfter, initState, x_d, dt, mass, gravity, K_p, K_d, C_R, a, b, c,
      L, C, kpz, kpphi, kdz, Prod.fst_add]

/-- C5 (amended): the controller writes raw mixed commands of either sign;
non-negativity holds only after the simulator clamps each command to its
configured `ctrlrange` `[0, 10]`, under which every applied command lies in
`[0, 10]`. -/
theorem c5_amended_clamped_nonneg :
    ∀ (inputs : ℕ → Vec4 ℚ) (n : ℕ),
      (0 ≤ clampCtrl ((ctrlAt inputs n).1) ∧ clampCtrl ((ctrlAt inputs n).1) ≤ 10) ∧
      (0 ≤ clampCtrl ((ctrlAt inputs n).2.1) ∧ clampCtrl ((ctrlAt inputs n).2.1) ≤ 10) ∧
      (0 ≤ clampCtrl ((ctrlAt inputs n).2.2.1) ∧ clampCtrl ((ctrlAt inputs n).2.2.1) ≤ 10) ∧
      (0 ≤ clampCtrl ((ctrlAt inputs n).2.2.2) ∧ clampCtrl ((ctrlAt inputs n).2.2.2) ≤ 10) := by
  intro inputs n
  exact ⟨clampCtrl_mem _, clampCtrl_mem _, clampCtrl_mem _, clampCtrl_mem _⟩

/-- C7: on the very first tick the retained previous error is zero, so the
derivative computed on tick 1 is `e/dt` (with `dt = 1/1000`); on every
subsequent tick the retained error is exactly the previous tick's error and
the derivative is the finite difference `(e - e_last)/dt`. -/
theorem c7_first_tick_derivative :
    ∀ inputs : ℕ → Vec4 ℚ,
      (stateAfter inputs 0).e = 0 ∧
      dt ℚ = 1 / 1000 ∧
      eDotAt inputs 0 = divs (errOf (inputs 0)) (dt ℚ) ∧
      ∀ n, (stateAfter inputs (n + 1)).e = errOf (inputs n) ∧
        eDotAt inputs (n + 1) =
          divs (errOf (inputs (n + 1)) - errOf (inputs n)) (dt ℚ) := by
  intro inputs
  refine ⟨rfl, rfl, ?_, fun n => ⟨rfl, rfl⟩⟩
  simp [eDotAt, eDotOf, stateAfter, initState]

/-- C9: for every control vector `u`, the four rotor commands `F = C_R·u`
sum to exactly `u[0]`: the first column of `C_R` sums to `4·a = 1` and each
of the other three columns sums to zero. -/
theorem c9_thrust_sum :
    (∀ u : Vec4 ℚ,
      (FOf u).1 + (FOf u).2.1 + (FOf u).2.2.1 + (FOf u).2.2.2 = u.1) ∧
    (C_R ℚ).1.1 + (C_R ℚ).2.1.1 + (C_R ℚ).2.2.1.1 + (C_R ℚ).2.2.2.1 = 4 * a ℚ ∧
    4 * a ℚ = 1 ∧
    (C_R ℚ).1.2.1 + (C_R ℚ).2.1.2.1 + (C_R ℚ).2.2.1.2.1 + (C_R ℚ).2.2.2.2.1 = 0 ∧
    (C_R ℚ).1.2.2.1 + (C_R ℚ).2.1.2.2.1 + (C_R ℚ).2.2.1.2.2.1 + (C_R ℚ).2.2.2.2.2.1 = 0 ∧
    (C_R ℚ).1.2.2.2 + (C_R ℚ).2.1.2.2.2 + (C_R ℚ).2.2.1.2.2.2 + (C_R ℚ).2.2.2.2.2.2 = 0 := by
  refine ⟨?_, ?_, ?_, ?_, ?_, ?_⟩
  · intro u
    simp [FOf, mulVec, dot, C_R, a, b, c, L, C]
    ring
  all_goals norm_num [C_R, a, b, c, L, C]

/-- C10: with the test flag set the loop body executes exactly 101 times:
the tick counter starts at 0 and is incremented once per iteration, the
break condition first holds after iteration 101 (when `t = 101 > 100`), and
it fails after every earlier iteration. -/
theorem c10_exactly_101_iterations :
    ∀ inputs : ℕ → Vec4 ℚ,
      (stateAfter inputs 0).t = 0 ∧
      (∀ n, (stateAfter inputs (n + 1)).t = (stateAfter inputs n).t + 1) ∧
      breakCond true ((stateAfter inputs 101).t) = true ∧
      ∀ k, k < 101 → breakCond true ((stateAfter inputs k).t) = false := by
  intro inputs
  refine ⟨rfl, fun n => by simp [stateAfter, tick], ?_, ?_⟩
  · rw [stateAfter_t]
    rfl
  · intro k hk
    rw [stateAfter_t]
    simp [breakCond]
    omega

/-- C3: the controller computes the attitude angles from the simulator's
rotation matrix exactly as `yaw = atan2(R[1][0], R[0][0])`,
`pitch = atan2(-R[2][0], sqrt(R[2][1]^2 + R[2][2]^2))`,
`roll = atan2(R[2][1], R[2][2])`, and forms the state vector
`x = [z, roll, pitch, yaw]` from them and the body's world z-position. -/
theorem c3_state_from_rotation :
    ∀ (R : Mat3) (z : ℝ),
      yawOf R = arctan2 R.2.1.1 R.1.1 ∧
      pitchOf R = arctan2 (-R.2.2.1) (Real.sqrt (R.2.2.2.1 ^ 2 + R.2.2.2.2 ^ 2)) ∧
      rollOf R = arctan2 R.2.2.2.1 R.2.2.2.2 ∧
      stateVec R z = (z, rollOf R, pitchOf R, yawOf R) := by
  intro R z
  exact ⟨rfl, rfl, rfl, rfl⟩

/-- C6: with the identity rotation matrix and the center of mass at the
target altitude `z = 1/2`, the computed error is the zero vector, and if the
retained previous error is also zero the control output before mixing is
pure gravity compensation `u = [mass*gravity, 0, 0, 0]`. -/
theorem c6_steady_state (R : Mat3) (z : ℝ) (hR : R = idMat3) (hz : z = 1 / 2) :
    errOf (stateVec R z) = 0 ∧
    ∀ e_last : Vec4 ℝ, e_last = 0 →
      uOf (errOf (stateVec R z)) (eDotOf (errOf (stateVec R z)) e_last)
        = (mass ℝ * gravity ℝ, 0, 0, 0) := by
  subst hR hz
  have hst : stateVec idMat3 (1 / 2) = ((1 : ℝ) / 2, 0, 0, 0) := by
    norm_num [stateVec, rollOf, pitchOf, yawOf, idMat3, arctan2,
      Real.sqrt_one, Real.arctan_zero]
  have he : errOf (stateVec idMat3 (1 / 2)) = 0 := by
    rw [hst]
    simp [errOf, x_d, Prod.mk_sub_mk]
  refine ⟨he, ?_⟩
  intro e_last hel
  subst hel
  rw [he]
  norm_num [uOf, uPD, eDotOf, divs, mulVec, dot, K_p, K_d, kpz, kpphi,
    kptheta, kppsi, kdz, kdphi, kdtheta, kdpsi, dt, Prod.fst_add,
    Prod.snd_add, Prod.mk_add_mk]

/-- Witness for C6 at the identity rotation and `z = 1/2`. -/
theorem c6_steady_state_witness :
    errOf (stateVec idMat3 (1 / 2)) = 0 ∧
    uOf (errOf (stateVec idMat3 (1 / 2)))
        (eDotOf (errOf (stateVec idMat3 (1 / 2))) 0)
      = (mass ℝ * gravity ℝ, 0, 0, 0) :=
  ⟨(c6_steady_state idMat3 (1 / 2) rfl rfl).1,
   (c6_steady_state idMat3 (1 / 2) rfl rfl).2 0 rfl⟩

/-- Key fact about the four-quadrant arctangent: on a point given in polar
form with positive radius and angle in the principal range `(-π, π]`, it
recovers the angle. -/
theorem arctan2_mul_cos_sin {r θ : ℝ} (hr : 0 < r)
    (h1 : -Real.pi < θ) (h2 : θ ≤ Real.pi) :
    arctan2 (r * Real.sin θ) (r * Real.cos θ) = θ := by
  have hdiv : r * Real.sin θ / (r * Real.cos θ) = Real.tan θ := by
    rw [mul_div_mul_left _ _ (ne_of_gt hr), Real.tan_eq_sin_div_cos]
  rcases lt_trichotomy (Real.cos θ) 0 with hc | hc | hc
  · have hx : r * Real.cos θ < 0 := mul_neg_of_pos_of_neg hr hc
    rcases le_or_lt 0 (Real.sin θ) with hs | hs
    · have hθpos : 0 < θ := by
        by_contra h
        push_neg at h
        rcases eq_or_lt_of_le h with h0 | h0
        · rw [h0, Real.cos_zero] at hc
          norm_num at hc
        · have := Real.sin_neg_of_neg_of_neg_pi_lt h0 h1
          linarith
      have hhalf : Real.pi / 2 < θ := by
        by_contra h
        push_neg at h
        have h0 : 0 ≤ Real.cos θ :=
          Real.cos_nonneg_of_mem_Icc ⟨by linarith [Real.pi_pos], h⟩
        linarith
      have hy : 0 ≤ r * Real.sin θ := mul_nonneg hr.le hs
      rw [arctan2, if_neg (not_lt.mpr hx.le), if_pos hx, if_pos hy, hdiv,
        ← Real.tan_sub_pi, Real.arctan_tan (by linarith) (by linarith [Real.pi_pos])]
      ring
    · have hθneg : θ < 0 := by
        by_contra h
        push_neg at h
        have := Real.sin_nonneg_of_nonneg_of_le_pi h h2
        linarith
      have hhalf : θ < -(Real.pi / 2) := by
        by_contra h
        push_neg at h
        have h0 : 0 ≤ Real.cos θ :=
          Real.cos_nonneg_of_mem_Icc ⟨h, by linarith [Real.pi_pos]⟩
        linarith
      have hy : ¬ 0 ≤ r * Real.sin θ :=
        not_le.mpr (mul_neg_of_pos_of_neg hr hs)
      rw [arctan2, if_neg (not_lt.mpr hx.le), if_pos hx, if_neg hy, hdiv,
        ← Real.tan_add_pi, Real.arctan_tan (by linarith [Real.pi_pos]) (by linarith)]
      ring
  · obtain ⟨k, hk⟩ := Real.cos_eq_zero_iff.mp hc
    have hπ := Real.pi_pos
    have hk2 : -2 < (2 * (k : ℝ) + 1) := by
      have : -Real.pi < (2 * (k : ℝ) + 1) * Real.pi / 2 := hk ▸ h1
      nlinarith
    have hk3 : (2 * (k : ℝ) + 1) ≤ 2 := by
      have : (2 * (k : ℝ) + 1) * Real.pi / 2 ≤ Real.pi := hk ▸ h2
      nlinarith
    have hk2i : -2 < 2 * k + 1 := by exact_mod_cast hk2
    have hk3i : 2 * k + 1 ≤ 2 := by exact_mod_cast hk3
    have hkval : k = 0 ∨ k = -1 := by omega
    rcases hkval with hk0 | hk0
    · subst hk0
      have hθval : θ = Real.pi / 2 := by rw [hk]; norm_num
      subst hθval
      rw [Real.sin_pi_div_two, Real.cos_pi_div_two, mul_one, mul_zero, arctan2,
        if_neg (lt_irrefl 0), if_neg (lt_irrefl 0), if_pos hr]
    · subst hk0
      have hθval : θ = -(Real.pi / 2) := by rw [hk]; push_cast; ring
      subst hθval
      rw [Real.sin_neg, Real.cos_neg, Real.sin_pi_div_two, Real.cos_pi_div_two,
        mul_neg_one, mul_zero, arctan2,
        if_neg (lt_irrefl 0), if_neg (lt_irrefl 0),
        if_neg (show ¬ 0 < -r by linarith), if_pos (show -r < 0 by linarith)]
  · have hx : 0 < r * Real.cos θ := mul_pos hr hc
    have hl : -(Real.pi / 2) < θ := by
      by_contra h
      push_neg at h
      have h0 : Real.cos θ ≤ 0 := by
        have := Real.cos_nonpos_of_pi_div_two_le_of_le
          (show Real.pi / 2 ≤ -θ by linarith)
          (show -θ ≤ Real.pi + Real.pi / 2 by linarith)
        rwa [Real.cos_neg] at this
      linarith
    have hu : θ < Real.pi / 2 := by
      by_contra h
      push_neg at h
      have h0 : Real.cos θ ≤ 0 :=
        Real.cos_nonpos_of_pi_div_two_le_of_le h (by linarith [Real.pi_pos])
      linarith
    rw [arctan2, if_pos hx, hdiv, Real.arctan_tan hl hu]

/-- The bottom-row magnitude `sqrt(R[2][1]^2 + R[2][2]^2)` of the Z-Y-X
rotation matrix equals `cos θ` when `cos θ ≥ 0`. -/
theorem sqrt_bottom_row (φ θ : ℝ) (hc : 0 ≤ Real.cos θ) :
    Real.sqrt ((Real.cos θ * Real.sin φ) ^ 2 + (Real.cos θ * Real.cos φ) ^ 2)
      = Real.cos θ := by
  have hsq : (Real.cos θ * Real.sin φ) ^ 2 + (Real.cos θ * Real.cos φ) ^ 2
      = Real.cos θ ^ 2 := by
    have h := Real.sin_sq_add_cos_sq φ
    linear_combination Real.cos θ ^ 2 * h
  rw [hsq, Real.sqrt_sq hc]

/-- C8: for every `(roll, pitch, yaw)` triple in the principal range
(roll and yaw in `(-π, π]`, pitch strictly inside `(-π/2, π/2)`, away from
gimbal lock), the controller's decomposition applied to the Z-Y-X rotation
matrix built from the triple recovers the triple exactly. -/
theorem c8_roundtrip (φ θ ψ : ℝ)
    (hφ1 : -Real.pi < φ) (hφ2 : φ ≤ Real.pi)
    (hθ1 : -(Real.pi / 2) < θ) (hθ2 : θ < Real.pi / 2)
    (hψ1 : -Real.pi < ψ) (hψ2 : ψ ≤ Real.pi) :
    rollOf (rotZYX φ θ ψ) = φ ∧ pitchOf (rotZYX φ θ ψ) = θ ∧
    yawOf (rotZYX φ θ ψ) = ψ := by
  have hcθ : 0 < Real.cos θ := Real.cos_pos_of_mem_Ioo ⟨hθ1, hθ2⟩
  refine ⟨?_, ?_, ?_⟩
  · show arctan2 (Real.cos θ * Real.sin φ) (Real.cos θ * Real.cos φ) = φ
    exact arctan2_mul_cos_sin hcθ hφ1 hφ2
  · show arctan2 (-(-Real.sin θ))
      (Real.sqrt ((Real.cos θ * Real.sin φ) ^ 2 + (Real.cos θ * Real.cos φ) ^ 2)) = θ
    rw [neg_neg, sqrt_bottom_row φ θ hcθ.le,
      ← one_mul (Real.sin θ), ← one_mul (Real.cos θ)]
    exact arctan2_mul_cos_sin one_pos (by linarith [Real.pi_pos]) (by linarith [Real.pi_pos])
  · show arctan2 (Real.sin ψ * Real.cos θ) (Real.cos ψ * Real.cos θ) = ψ
    rw [mul_comm (Real.sin ψ) (Real.cos θ), mul_comm (Real.cos ψ) (Real.cos θ)]
    exact arctan2_mul_cos_sin hcθ hψ1 hψ2

/-- Witness for C8 at the triple `(0, 0, 0)`. -/
theorem c8_roundtrip_witness :
    rollOf (rotZYX 0 0 0) = 0 ∧ pitchOf (rotZYX 0 0 0) = 0 ∧
    yawOf (rotZYX 0 0 0) = 0 :=
  c8_roundtrip 0 0 0 (by linarith [Real.pi_pos]) Real.pi_pos.le
    (by linarith [Real.pi_pos]) (by linarith [Real.pi_pos])
    (by linarith [Real.pi_pos]) Real.pi_pos.le

end QuadPid
